import Mathlib

/-!
Verification development for the backup management script
(`management/backup.py`): the backup chain status model, the retention
predictor, the full-backup-forcing policy and the orchestration of one
backup run are embedded shallowly as executable Lean definitions, and
the spec's claims are settled against them.

External collaborators (the `duplicity` subprocess, the OS service
manager, the filesystem, `dateutil`) appear as explicit parameters or
as small models of their documented behaviour; their outcomes are
fields of a `World` record so every path of the orchestration can be
examined.
-/

set_option autoImplicit false

/-! ### Calendar model

The script's relative-age display (`reldate`) is built on
`dateutil.relativedelta.relativedelta(ref, date)`, which computes a
calendar-normalised difference: the largest month count `m` such that
`date` shifted by `m` months (with day-of-month clamping) does not pass
`ref`, split into `years`/`months`, with the remainder decomposed into
`days`/`hours`/`minutes`/`seconds`.  We model Gregorian-calendar
datetimes at second precision (the script never reads sub-second
fields). -/

def isLeap (y : Nat) : Bool :=
  (y % 4 == 0 && y % 100 != 0) || y % 400 == 0

def yearLength (y : Nat) : Nat :=
  if isLeap y then 366 else 365

def daysInMonth (y : Nat) : Nat → Nat
  | 1 => 31
  | 2 => if isLeap y then 29 else 28
  | 3 => 31
  | 4 => 30
  | 5 => 31
  | 6 => 30
  | 7 => 31
  | 8 => 31
  | 9 => 30
  | 10 => 31
  | 11 => 30
  | 12 => 31
  | _ => 31

/-- Total number of days in months `1..m` of year `y`. -/
def monthsTotal (y : Nat) : Nat → Nat
  | 0 => 0
  | m + 1 => monthsTotal y m + daysInMonth y (m + 1)

/-- Days strictly before January 1 of year `y`, counting from year 1
(proleptic Gregorian). -/
def daysBeforeYear : Nat → Nat
  | 0 => 0
  | y + 1 => daysBeforeYear y + (if y = 0 then 0 else yearLength y)

structure DateTime where
  year : Nat
  month : Nat
  day : Nat
  hour : Nat
  minute : Nat
  second : Nat
deriving DecidableEq, Repr

/-- A datetime that the Python `datetime` library could actually hold. -/
def ValidDT (dt : DateTime) : Prop :=
  1 ≤ dt.year ∧ 1 ≤ dt.month ∧ dt.month ≤ 12 ∧
  1 ≤ dt.day ∧ dt.day ≤ daysInMonth dt.year dt.month ∧
  dt.hour < 24 ∧ dt.minute < 60 ∧ dt.second < 60

instance (dt : DateTime) : Decidable (ValidDT dt) := by
  unfold ValidDT; infer_instance

/-- Day index of a date on the proleptic Gregorian timeline. -/
def toDayNumber (dt : DateTime) : Nat :=
  daysBeforeYear dt.year + monthsTotal dt.year (dt.month - 1) + (dt.day - 1)

/-- Timeline position in seconds; Python `datetime` comparison agrees
with this order on valid datetimes. -/
def toSecs (dt : DateTime) : Nat :=
  86400 * toDayNumber dt + 3600 * dt.hour + 60 * dt.minute + dt.second

/-- Index of a month on the infinite month line. -/
def monthIdx (dt : DateTime) : Nat :=
  dt.year * 12 + (dt.month - 1)

/-- Shift a date by `k` months, clamping the day-of-month, exactly as
`dateutil.relativedelta.__radd__` does when only months are set. -/
def addMonths (dt : DateTime) (k : Nat) : DateTime :=
  let i := monthIdx dt + k
  { dt with
    year := i / 12
    month := i % 12 + 1
    day := min dt.day (daysInMonth (i / 12) (i % 12 + 1)) }

/-- The decrementing month search of `relativedelta.__init__`: starting
from the naive month-difference guess, step down while `dt2` shifted by
that many months overshoots `dt1`. -/
def findMonths (dt1 dt2 : DateTime) : Nat → Nat
  | 0 => 0
  | k + 1 =>
    if toSecs dt1 < toSecs (addMonths dt2 (k + 1)) then findMonths dt1 dt2 k
    else k + 1

structure RelDelta where
  years : Nat
  months : Nat
  days : Nat
  hours : Nat
  minutes : Nat
  seconds : Nat
deriving DecidableEq, Repr

/-- The calendar difference `relativedelta(dt1, dt2)` for `dt1` at or
after `dt2` (the only way `backup.py` calls it). -/
def relativedeltaOf (dt1 dt2 : DateTime) : RelDelta :=
  let guess := (dt1.year * 12 + dt1.month) - (dt2.year * 12 + dt2.month)
  let m := findMonths dt1 dt2 guess
  let delta := toSecs dt1 - toSecs (addMonths dt2 m)
  { years := m / 12
    months := m % 12
    days := delta / 86400
    hours := delta % 86400 / 3600
    minutes := delta % 3600 / 60
    seconds := delta % 60 }

/-- One value per `return` statement of `reldate`; `render` below
recovers the exact formatted text. -/
inductive RelDate where
  | clipped (s : String)
  | monthsDays (m d : Nat)
  | monthDays (m d : Nat)
  | daysOnly (d : Nat)
  | daysHours (d h : Nat)
  | dayHours (d h : Nat)
  | hoursMinutes (h m : Nat)
deriving DecidableEq, Repr

/-- `backup_status.reldate(date, ref, clip)` from `backup.py` lines
45-53. -/
def reldate (date ref : DateTime) (clip : String) : RelDate :=
  if toSecs ref < toSecs date then .clipped clip
  else
    let rd := relativedeltaOf ref date
    if 1 < rd.months then .monthsDays rd.months rd.days
    else if rd.months = 1 then .monthDays rd.months rd.days
    else if 7 ≤ rd.days then .daysOnly rd.days
    else if 1 < rd.days then .daysHours rd.days rd.hours
    else if rd.days = 1 then .dayHours rd.days rd.hours
    else .hoursMinutes rd.hours rd.minutes

/-- The format strings of `reldate`, for reference. -/
def renderRelDate : RelDate → String
  | .clipped s => s
  | .monthsDays m d => toString m ++ " months, " ++ toString d ++ " days"
  | .monthDays m d => toString m ++ " month, " ++ toString d ++ " days"
  | .daysOnly d => toString d ++ " days"
  | .daysHours d h => toString d ++ " days, " ++ toString h ++ " hours"
  | .dayHours d h => toString d ++ " day, " ++ toString h ++ " hours"
  | .hoursMinutes h m => toString h ++ " hours, " ++ toString m ++ " minutes"

/-- Does `reldate` land in the months-and-days display tier? -/
def isMonthsTier : RelDate → Bool
  | .monthsDays _ _ => true
  | .monthDays _ _ => true
  | _ => false

/-- Python's `round` on the exact value: round half to even. -/
def pyRound (q : ℚ) : ℤ :=
  let f : ℤ := ⌊q⌋
  let r : ℚ := q - (f : ℚ)
  if r < 1 / 2 then f
  else if 1 / 2 < r then f + 1
  else if f % 2 = 0 then f else f + 1

/-- One calendar day earlier, time fields unchanged. -/
def subOneDay (dt : DateTime) : DateTime :=
  if 1 < dt.day then { dt with day := dt.day - 1 }
  else if 1 < dt.month then
    { dt with month := dt.month - 1, day := daysInMonth dt.year (dt.month - 1) }
  else { dt with year := dt.year - 1, month := 12, day := 31 }

/-- `now - datetime.timedelta(days = k)`. -/
def subDays (dt : DateTime) : Nat → DateTime
  | 0 => dt
  | k + 1 => subDays (subOneDay dt) k

/-! ### Python string primitives

The script manipulates Python `str` values; the operations it uses are
embedded structurally over the character list so that every concrete
run can be evaluated inside the kernel. -/

/-- Python `str.strip()`. -/
def pyStrip (s : String) : String :=
  String.mk ((((s.toList.dropWhile Char.isWhitespace).reverse.dropWhile
    Char.isWhitespace)).reverse)

def pyTokensAux (acc : List Char) : List Char → List (List Char)
  | [] => if acc = [] then [] else [acc.reverse]
  | c :: cs =>
    if c.isWhitespace then
      if acc = [] then pyTokensAux [] cs else acc.reverse :: pyTokensAux [] cs
    else pyTokensAux (c :: acc) cs

/-- Python `str.split()` with no separator: whitespace runs, no empty
tokens (so `line.strip().split()` is the same as `line.split()`). -/
def pyTokens (s : String) : List String :=
  (pyTokensAux [] s.toList).map String.mk

def pySplitCharAux (sep : Char) : List Char → List (List Char)
  | [] => [[]]
  | c :: cs =>
    if c = sep then [] :: pySplitCharAux sep cs
    else
      match pySplitCharAux sep cs with
      | t :: ts => (c :: t) :: ts
      | [] => [[c]]

/-- Python `str.split(sep)` for a one-character separator. -/
def pySplitChar (sep : Char) (s : String) : List String :=
  (pySplitCharAux sep s.toList).map String.mk

def pyStartsWithAux : List Char → List Char → Bool
  | _, [] => true
  | [], _ :: _ => false
  | c :: cs, d :: ds => c = d && pyStartsWithAux cs ds

/-- Python `str.startswith(pre)`. -/
def pyStartsWith (s pre : String) : Bool :=
  pyStartsWithAux s.toList pre.toList

def pyStrLtAux : List Char → List Char → Bool
  | [], [] => false
  | [], _ :: _ => true
  | _ :: _, [] => false
  | c :: cs, d :: ds =>
    if c < d then true else if d < c then false else pyStrLtAux cs ds

/-- Python `<` on strings: lexicographic by code point. -/
def pyStrLt (a b : String) : Bool :=
  pyStrLtAux a.toList b.toList

/-! ### Configuration store

`get_backup_config` loads `custom.yaml`; the document is a flat mapping
modelled as an association list in file order (Python 3 `dict`
semantics: updates replace in place, new keys append). -/

inductive ConfVal where
  | str (s : String)
  | int (n : ℤ)
deriving DecidableEq, Repr

abbrev ConfDoc := List (String × ConfVal)

/-- What reading/parsing `custom.yaml` can produce. -/
inductive ReadResult where
  | readFailed
  | notMapping
  | mapping (doc : ConfDoc)
deriving DecidableEq, Repr

def alookup (k : String) : ConfDoc → Option ConfVal
  | [] => none
  | (k', v) :: rest => if k' = k then some v else alookup k rest

/-- Python `dict` assignment `d[k] = v`. -/
def dictInsert (d : ConfDoc) (k : String) (v : ConfVal) : ConfDoc :=
  match d with
  | [] => [(k, v)]
  | (k', v') :: rest =>
    if k' = k then (k, v) :: rest else (k', v') :: dictInsert rest k v

/-- Python `d.update(e)`. -/
def dictUpdate (d : ConfDoc) : ConfDoc → ConfDoc
  | [] => d
  | (k, v) :: rest => dictUpdate (dictInsert d k v) rest

/-- Module-level `backup_root = os.path.join(STORAGE_ROOT, 'backup')`. -/
def backupRootOf (storageRoot : String) : String :=
  storageRoot ++ "/backup"

/-- `default_config` from `backup.py` lines 29-32. -/
def default_config (storageRoot : String) : ConfDoc :=
  [("min_age_in_days", .int 3),
   ("target", .str ("file://" ++ backupRootOf storageRoot ++ "/encrypted"))]

/-- `get_backup_config` from `backup.py` lines 342-352.  Note that the
source computes `merged_config` and then executes `return config`, so
the merged defaults are discarded. -/
def get_backup_config (storageRoot : String) (doc : ReadResult) : ConfDoc :=
  match doc with
  | .readFailed => default_config storageRoot
  | .notMapping => default_config storageRoot
  | .mapping config =>
    let merged_config := dictUpdate (default_config storageRoot) config
    let _ := merged_config
    config

/-- Errors a run can raise; Python exception classes collapsed to the
distinctions the spec draws. -/
inductive BErr where
  | passphraseTooShort
  | statusUnavailable
  | keyError (k : String)
  | typeError
  | parseError
  | subprocessFailed
deriving DecidableEq, Repr

/-- `config["target"]` (raises `KeyError` when absent, `TypeError` on a
non-string value used as a URI). -/
def cfgTarget (config : ConfDoc) : Except BErr String :=
  match alookup "target" config with
  | some (.str s) => .ok s
  | some (.int _) => .error .typeError
  | none => .error (.keyError "target")

/-- `config["min_age_in_days"]` used as an integer. -/
def cfgMinAge (config : ConfDoc) : Except BErr ℤ :=
  match alookup "min_age_in_days" config with
  | some (.int n) => .ok n
  | some (.str _) => .error .typeError
  | none => .error (.keyError "min_age_in_days")

def cfgStrField (k : String) (config : ConfDoc) : Except BErr String :=
  match alookup k config with
  | some (.str s) => .ok s
  | some (.int _) => .error .typeError
  | none => .error (.keyError k)

/-- `get_passphrase` from `backup.py` lines 155-166: the first line of
`secret_key.txt`, stripped; fatal when shorter than 43 characters. -/
def get_passphrase (secretFirstLine : String) : Except BErr String :=
  let passphrase := pyStrip secretFirstLine
  if passphrase.length < 43 then .error .passphraseTooShort
  else .ok passphrase

/-- `get_target_type` from `backup.py` lines 179-181:
`config["target"].split(":")[0]`. -/
def get_target_type (config : ConfDoc) : Except BErr String := do
  let t ← cfgTarget config
  pure ((pySplitChar ':' t).headD "")

/-- `get_env` from `backup.py` lines 168-177: the subprocess
environment always holds `PASSPHRASE`; S3 credentials are added exactly
when the target scheme is `s3`. -/
def get_env (config : ConfDoc) (secretFirstLine : String) :
    Except BErr (List (String × String)) := do
  let p ← get_passphrase secretFirstLine
  let env := [("PASSPHRASE", p)]
  let tt ← get_target_type config
  if tt = "s3" then do
    let u ← cfgStrField "target_user" config
    let pw ← cfgStrField "target_pass" config
    pure (env ++ [("AWS_ACCESS_KEY_ID", u), ("AWS_SECRET_ACCESS_KEY", pw)])
  else
    pure env

/-! ### Command lines handed to the external tool

Each list mirrors one `shell(...)` call site; credentials never appear
in them, only in the environment built by `get_env`. -/

/-- Arguments of the `collection-status` call, `backup.py` lines 67-76. -/
def status_args (storageRoot : String) (config : ConfDoc) :
    Except BErr (List String) := do
  let t ← cfgTarget config
  pure ["/usr/bin/duplicity", "collection-status",
        "--archive-dir", backupRootOf storageRoot ++ "/cache",
        "--log-file", backupRootOf storageRoot ++ "/duplicity_status",
        "--gpg-options", "--cipher-algo=AES256",
        "--log-fd", "1", t]

/-- Arguments of the snapshot call, `backup.py` lines 231-242. -/
def snapshot_args (storageRoot : String) (config : ConfDoc)
    (full_backup : Bool) : Except BErr (List String) := do
  let t ← cfgTarget config
  pure ["/usr/bin/duplicity", if full_backup then "full" else "incr",
        "--archive-dir", backupRootOf storageRoot ++ "/cache",
        "--asynchronous-upload",
        "--exclude", backupRootOf storageRoot,
        "--volsize", "250",
        "--gpg-options", "--cipher-algo=AES256",
        storageRoot, t, "--allow-source-mismatch"]

/-- Arguments of the `remove-older-than` call, `backup.py` lines
259-266. -/
def remove_args (storageRoot : String) (config : ConfDoc) :
    Except BErr (List String) := do
  let age ← cfgMinAge config
  let t ← cfgTarget config
  pure ["/usr/bin/duplicity", "remove-older-than", toString age ++ "D",
        "--archive-dir", backupRootOf storageRoot ++ "/cache",
        "--force", t]

/-- Arguments of the `cleanup` call, `backup.py` lines 277-283. -/
def cleanup_args (storageRoot : String) (config : ConfDoc) :
    Except BErr (List String) := do
  let t ← cfgTarget config
  pure ["/usr/bin/duplicity", "cleanup",
        "--archive-dir", backupRootOf storageRoot ++ "/cache",
        "--force", t]

/-- Arguments of the post-backup hook call, `backup.py` line 299. -/
def post_args (storageRoot storageUser : String) (config : ConfDoc) :
    Except BErr (List String) := do
  let t ← cfgTarget config
  pure ["su", storageUser, "-c", backupRootOf storageRoot ++ "/after-backup", t]

/-! ### Status collector and retention predictor -/

/-- The shared `deleted_in` estimate: either the rounded linear
extrapolation (`"approx. %d days"`) or a `reldate` string. -/
inductive DeletedIn where
  | approxDays (n : ℤ)
  | rel (r : RelDate)
deriving DecidableEq, Repr

/-- One backup record as built by `parse_line` (`backup.py` lines
55-64) and later annotated with `deleted_in`.  `dateParsed` caches
`dateutil.parser.parse(keys[1])`; the source re-parses the stored
string, which is equivalent because parsing is deterministic. -/
structure SRec where
  date : String
  dateParsed : DateTime
  date_str : String
  date_delta : RelDate
  full : Bool
  size : Nat
  deletedIn : Option DeletedIn := none
deriving DecidableEq, Repr

/-- Small stand-in for `dateutil.parser.parse` on the ISO-ish
timestamps duplicity emits (`YYYYMMDDTHHMMSSZ`, or `YYYY-MM-DD`). -/
def parseDateISO (s : String) : Option DateTime :=
  let cs := s.toList
  let digits (l : List Char) : Option Nat :=
    if l ≠ [] ∧ l.all Char.isDigit then
      some (l.foldl (fun a c => a * 10 + (c.toNat - 48)) 0)
    else none
  if cs.length ≥ 16 ∧ cs.get? 8 = some 'T' then do
    let y ← digits (cs.take 4)
    let mo ← digits ((cs.drop 4).take 2)
    let d ← digits ((cs.drop 6).take 2)
    let h ← digits ((cs.drop 9).take 2)
    let mi ← digits ((cs.drop 11).take 2)
    let se ← digits ((cs.drop 13).take 2)
    pure ⟨y, mo, d, h, mi, se⟩
  else
    match pySplitChar '-' s with
    | [ys, ms, ds] => do
      let y ← digits ys.toList
      let mo ← digits ms.toList
      let d ← digits ds.toList
      pure ⟨y, mo, d, 0, 0, 0⟩
    | _ => none

/-- Rendering of `date.strftime("%x %X")` (locale-dependent in Python;
modelled as the C-locale `MM/DD/YYYY HH:MM:SS`). -/
def renderDateStr (dt : DateTime) : String :=
  toString dt.month ++ "/" ++ toString dt.day ++ "/" ++ toString dt.year ++ " "
    ++ toString dt.hour ++ ":" ++ toString dt.minute ++ ":" ++ toString dt.second

/-- `parse_line` from `backup.py` lines 55-64: split on whitespace,
parse the date, flag fullness by the first token, estimate size as
volume count times 250,000,000 bytes.  Missing tokens, a bad date or a
bad volume count raise (IndexError/ValueError), modelled as
`parseError`. -/
def parse_line (now : DateTime) (line : String) : Except BErr SRec :=
  let keys := pyTokens line
  match keys with
  | k0 :: k1 :: k2 :: _ =>
    match parseDateISO k1, k2.toNat? with
    | some date, some vols =>
      .ok { date := k1
            dateParsed := date
            date_str := renderDateStr date
            date_delta := reldate date now "the future?"
            full := k0 = "full"
            size := vols * 250 * 1000000 }
    | _, _ => .error .parseError
  | _ => .error .parseError

/-- Python `dict` keyed by date: a repeated date replaces the value at
its first position, a new date appends. -/
def dictInsertRec (acc : List SRec) (b : SRec) : List SRec :=
  if acc.any (·.date = b.date) then
    acc.map (fun c => if c.date = b.date then b else c)
  else acc ++ [b]

/-- The record-collection loop of `backup_status` (`backup.py` lines
82-85): keep lines starting with `" full"` or `" inc"`. -/
def collectLoop (now : DateTime) (acc : List SRec) :
    List String → Except BErr (List SRec)
  | [] => .ok acc
  | line :: rest =>
    if pyStartsWith line " full" || pyStartsWith line " inc" then do
      let b ← parse_line now line
      collectLoop now (dictInsertRec acc b) rest
    else collectLoop now acc rest

def collectRecords (now : DateTime) (lines : List String) :
    Except BErr (List SRec) :=
  collectLoop now [] lines

/-- Stable insertion for the reverse-chronological sort
(`sorted(..., key=date, reverse=True)`, `backup.py` line 89). -/
def insertDesc (b : SRec) : List SRec → List SRec
  | [] => [b]
  | c :: rest => if pyStrLt c.date b.date then b :: c :: rest else c :: insertDesc b rest

def sortByDateDesc (l : List SRec) : List SRec :=
  l.foldl (fun acc b => insertDesc b acc) []

/-- The size-scanning loop of `backup_status` (`backup.py` lines
93-101): count and sum the incrementals before the most recent full
backup, and record that full backup's size. -/
def scanSizes : List SRec → Nat × Nat × Option Nat
  | [] => (0, 0, none)
  | b :: rest =>
    if b.full then (0, 0, some b.size)
    else
      let (c, s, f) := scanSizes rest
      (c + 1, s + b.size, f)

/-- The deletion-time propagation loop of `backup_status` (`backup.py`
lines 113-127).  A non-`none` estimate is always a non-empty string in
the source, so Python truthiness is `Option.isSome`. -/
def propagate (daysAgo : DateTime) :
    Option DeletedIn → Bool → List SRec → List SRec
  | _, _, [] => []
  | del, sawFull, b :: rest =>
    let b1 := if del.isSome then { b with deletedIn := del } else b
    if b.full then
      b1 :: propagate daysAgo none true rest
    else if sawFull && del.isNone then
      let d := DeletedIn.rel (reldate daysAgo b.dateParsed "on next daily backup")
      { b1 with deletedIn := some d } :: propagate daysAgo (some d) sawFull rest
    else
      b1 :: propagate daysAgo del sawFull rest

/-- The estimation formula of `backup.py` line 110. -/
def deletedInEstimate (minAge : ℤ) (count size fullSize : Nat) : DeletedIn :=
  .approxDays (pyRound ((minAge : ℚ) +
    ((1 / 2) * (fullSize : ℚ) - (size : ℚ)) / ((size : ℚ) / (count : ℚ)) + 1 / 2))

/-- Sort, scan and annotate a record list: `backup_status` lines
87-127 after parsing. -/
def computeBackups (minAge : ℤ) (now : DateTime) (recs : List SRec) :
    List SRec :=
  let backups := sortByDateDesc recs
  let (count, size, firstFull) := scanSizes backups
  let del0 : Option DeletedIn :=
    if 0 < count then
      match firstFull with
      | some fs => some (deletedInEstimate minAge count size fs)
      | none => none
    else none
  let daysAgo := subDays now minAge.toNat
  propagate daysAgo del0 false backups

/-- Modelled from the spec: `utils.shell('check_output', ...)` is not
under `src/`; per the external-interface contract, a non-zero exit of
the status query surfaces as an exception, and a zero exit yields the
tool's output lines. -/
def shellCheckOutput (result : Except Unit (List String)) :
    Except BErr (List String) :=
  match result with
  | .error _ => .error .statusUnavailable
  | .ok lines => .ok lines

/-- The result dictionary of `backup_status` (`backup.py` lines
129-134). -/
structure StatusResult where
  directory : String
  encpwfile : String
  tz : String
  backups : List SRec
deriving DecidableEq, Repr

/-- Everything outside the script that one orchestration run can
observe: CLI flag, file contents, directory states and subprocess
outcomes. -/
structure World where
  fullFlag : Bool
  secretFirstLine : String
  customYaml : ReadResult
  statusOut : Except Unit (List String)
  oldDirExists : Bool
  migratedDirPreexists : Bool
  snapshotOk : Bool
  pruneOk : Bool
  cleanupOk : Bool
  postScriptExists : Bool
  postHookOk : Bool
  now : DateTime
  tz : String
  storageUser : String

/-- `backup_status(env)` from `backup.py` lines 34-134, with
evaluation order preserved: config load, argument construction
(`config["target"]`), `get_env()` (passphrase check), the status
subprocess, parsing, then the retention prediction. -/
def backup_status (storageRoot : String) (w : World) :
    Except BErr StatusResult := do
  let config := get_backup_config storageRoot w.customYaml
  let _args ← status_args storageRoot config
  let _env ← get_env config w.secretFirstLine
  let lines ← shellCheckOutput w.statusOut
  let recs ← collectRecords w.now lines
  let minAge ← cfgMinAge config
  pure { directory := backupRootOf storageRoot ++ "/encrypted"
         encpwfile := backupRootOf storageRoot ++ "/secret_key.txt"
         tz := w.tz
         backups := computeBackups minAge w.now recs }

/-- The scanning loop of `should_force_full` (`backup.py` lines
140-153): accumulate incremental sizes until the first full record and
compare against half its size; the `for/else` returns `True` when no
full record exists. -/
def should_force_full_loop (inc_size : ℚ) : List SRec → Bool
  | [] => true
  | bak :: rest =>
    if !bak.full then should_force_full_loop (inc_size + (bak.size : ℚ)) rest
    else decide ((1 / 2 : ℚ) * (bak.size : ℚ) < inc_size)

def should_force_full_chain (backups : List SRec) : Bool :=
  should_force_full_loop 0 backups

/-- `should_force_full(env)` from `backup.py` lines 136-153. -/
def should_force_full (storageRoot : String) (w : World) :
    Except BErr Bool := do
  let st ← backup_status storageRoot w
  pure (should_force_full_chain st.backups)

/-! ### Backup orchestrator -/

/-- Observable actions of one `perform_backup` run, in program order. -/
inductive Ev where
  | moveOldDir
  | rmtreeBackupDir
  | stopDovecot
  | stopPostfix
  | snapshot (full : Bool)
  | logBackupOk
  | logBackupFailed
  | startDovecot
  | startPostfix
  | rmtreeMigrated
  | removeOlder
  | warnRemoveFailed
  | cleanupCmd
  | warnCleanupFailed
  | chown
  | postHook
  | waitSvc (port : Nat)
deriving DecidableEq, Repr

/-- Mode selection, `backup.py` line 221: `full_backup or
should_force_full(env)` with Python short-circuiting. -/
def modeSelect (storageRoot : String) (w : World) : Except BErr Bool :=
  if w.fullFlag then .ok true else should_force_full storageRoot w

/-- The snapshot `try` block (`backup.py` lines 230-246): the argument
list (`config["target"]`) and `get_env()` are evaluated inside the
`try`, so their exceptions are caught like a subprocess failure; a
successful attempt logs info, any failure logs a warning. -/
def snapshotEvents (storageRoot : String) (config : ConfDoc) (w : World)
    (full : Bool) : List Ev :=
  match snapshot_args storageRoot config full, get_env config w.secretFirstLine with
  | .ok _, .ok _ =>
    [.snapshot full] ++ (if w.snapshotOk then [.logBackupOk] else [.logBackupFailed])
  | _, _ => [.logBackupFailed]

/-- Steps after the guaranteed service restart (`backup.py` lines
252-307): migrated-directory cleanup, pruning, cleanup, ownership
change, post-hook and the restart verification polls.  Pruning and
cleanup failures (including their own `get_env()` raising) are caught;
`get_target_type` and the post-hook are outside any `try` and
propagate. -/
def afterRestartSteps (storageRoot : String) (config : ConfDoc) (w : World)
    (migratedPresent : Bool) : List Ev × Option BErr :=
  let migratedEvs : List Ev := if migratedPresent then [.rmtreeMigrated] else []
  let pruneEvs : List Ev :=
    match remove_args storageRoot config, get_env config w.secretFirstLine with
    | .ok _, .ok _ => [.removeOlder] ++ (if w.pruneOk then [] else [.warnRemoveFailed])
    | _, _ => [.warnRemoveFailed]
  let cleanupEvs : List Ev :=
    match cleanup_args storageRoot config, get_env config w.secretFirstLine with
    | .ok _, .ok _ => [.cleanupCmd] ++ (if w.cleanupOk then [] else [.warnCleanupFailed])
    | _, _ => [.warnCleanupFailed]
  match get_target_type config with
  | .error e => (migratedEvs ++ pruneEvs ++ cleanupEvs, some e)
  | .ok t =>
    let chownEvs : List Ev := if t = "file" then [.chown] else []
    let base := migratedEvs ++ pruneEvs ++ cleanupEvs ++ chownEvs
    if w.postScriptExists then
      match post_args storageRoot w.storageUser config,
            get_env config w.secretFirstLine with
      | .ok _, .ok _ =>
        if w.postHookOk then (base ++ [.postHook, .waitSvc 25, .waitSvc 993], none)
        else (base ++ [.postHook], some .subprocessFailed)
      | .error e, _ => (base, some e)
      | _, .error e => (base, some e)
    else (base ++ [.waitSvc 25, .waitSvc 993], none)

/-- `perform_backup(full_backup)` from `backup.py` lines 183-307 as a
trace of events plus the final outcome (`none` = returned normally).
The service-manager stop/start calls themselves are modelled as
succeeding; the snapshot `finally` block emits the two start events on
every path through the `try`. -/
def perform_backup (storageRoot : String) (w : World) :
    List Ev × Option BErr :=
  let config := get_backup_config storageRoot w.customYaml
  let migrationEvs : List Ev :=
    if w.oldDirExists then [.moveOldDir, .rmtreeBackupDir] else []
  let migratedPresent := w.oldDirExists || w.migratedDirPreexists
  match modeSelect storageRoot w with
  | .error e => (migrationEvs, some e)
  | .ok full =>
    let (tailEvs, outcome) := afterRestartSteps storageRoot config w migratedPresent
    (migrationEvs ++ [.stopDovecot, .stopPostfix]
       ++ snapshotEvents storageRoot config w full
       ++ [.startDovecot, .startPostfix] ++ tailEvs,
     outcome)

/-! ### Helper values used by the theorems below -/

/-- Cumulative incremental size as the exact rational the float loop
computes. -/
def sumSizesQ (l : List SRec) : ℚ :=
  (l.map (fun b => (b.size : ℚ))).sum

/-- A status record with the given date, parsed date, type and size
(display fields irrelevant to the algorithms). -/
def mkChainRec (d : String) (dp : DateTime) (f : Bool) (s : Nat) : SRec :=
  { date := d, dateParsed := dp, date_str := "", date_delta := .daysOnly 0,
    full := f, size := s }

/-- A record whose date plays no role (policy-only statements). -/
def plainRec (f : Bool) (s : Nat) : SRec :=
  mkChainRec "" ⟨1, 1, 1, 0, 0, 0⟩ f s

/-- Events of the one-time legacy migration step. -/
def isMigrationEv : Ev → Bool
  | .moveOldDir => true
  | .rmtreeBackupDir => true
  | _ => false

/-- Events of the snapshot-execution `try` block (the attempt and its
log line). -/
def isSnapshotPhaseEv : Ev → Bool
  | .snapshot _ => true
  | .logBackupOk => true
  | .logBackupFailed => true
  | _ => false

/-- Day number of the first day of the month with index `i`. -/
def monthStart (i : Nat) : Nat :=
  daysBeforeYear (i / 12) + monthsTotal (i / 12) (i % 12)

/-- A 43-character base64-looking passphrase line. -/
def goodSecret : String := "aaaaaaaaaaaaaaaaaaaaaaaaaaaaaaaaaaaaaaaaaaa"

/-- A 20-character first line, too short to be a valid passphrase. -/
def shortSecret : String := "aaaaaaaaaaaaaaaaaaaa"

/-- A benign environment: full flag set, healthy passphrase, default
config, empty status output, snapshot subprocess FAILING (to examine
the guaranteed-restart path), no legacy directory, no post hook. -/
def wGood : World :=
  { fullFlag := true
    secretFirstLine := goodSecret
    customYaml := .readFailed
    statusOut := .ok []
    oldDirExists := false
    migratedDirPreexists := false
    snapshotOk := false
    pruneOk := true
    cleanupOk := true
    postScriptExists := false
    postHookOk := true
    now := ⟨2, 1, 4, 0, 0, 0⟩
    tz := "UTC"
    storageUser := "user-data" }

/-- The spec's retention scenario chain: a full backup of size 100 on
day 0 followed by two incrementals of size 10. -/
def c7chain : List SRec :=
  [mkChainRec "0002-01-01" ⟨2, 1, 1, 0, 0, 0⟩ true 100,
   mkChainRec "0002-01-02" ⟨2, 1, 2, 0, 0, 0⟩ false 10,
   mkChainRec "0002-01-03" ⟨2, 1, 3, 0, 0, 0⟩ false 10]

/-! ## Theorems -/

/-! ### Full-backup policy (claims C3, C4) -/

theorem sffl_no_full (l : List SRec) :
    ∀ acc : ℚ, l.all (fun b => !b.full) = true →
      should_force_full_loop acc l = true := by
  induction l with
  | nil => intro acc _; rfl
  | cons b rest ih =>
    intro acc h
    simp only [List.all_cons, Bool.and_eq_true] at h
    simp only [should_force_full_loop, h.1, if_true]
    exact ih _ h.2

theorem sffl_cons_inc (b : SRec) (l : List SRec) (acc : ℚ) (hb : b.full = false) :
    should_force_full_loop acc (b :: l) =
      should_force_full_loop (acc + (b.size : ℚ)) l := by
  simp [should_force_full_loop, hb]

theorem sffl_cons_full (b : SRec) (l : List SRec) (acc : ℚ) (hb : b.full = true) :
    should_force_full_loop acc (b :: l) =
      decide ((1 / 2 : ℚ) * (b.size : ℚ) < acc) := by
  simp [should_force_full_loop, hb]

theorem sffl_append (incs : List SRec) (f : SRec) (rest : List SRec) :
    ∀ acc : ℚ, incs.all (fun b => !b.full) = true → f.full = true →
      should_force_full_loop acc (incs ++ f :: rest) =
        decide ((1 / 2 : ℚ) * (f.size : ℚ) < acc + sumSizesQ incs) := by
  induction incs with
  | nil =>
    intro acc _ hf
    rw [List.nil_append, sffl_cons_full f rest acc hf]
    simp [sumSizesQ]
  | cons b incs ih =>
    intro acc h hf
    simp only [List.all_cons, Bool.and_eq_true, Bool.not_eq_true'] at h
    rw [List.cons_append, sffl_cons_inc b _ acc h.1, ih _ (by simpa using h.2) hf]
    have hs : acc + (b.size : ℚ) + sumSizesQ incs = acc + sumSizesQ (b :: incs) := by
      simp [sumSizesQ]; ring
    rw [hs]

/-- C3: for every chain that contains no full record — including the
empty chain — `should_force_full` returns true. -/
theorem c3_no_full_forces_full (chain : List SRec)
    (h : chain.all (fun b => !b.full) = true) :
    should_force_full_chain chain = true :=
  sffl_no_full chain 0 h

theorem c3_no_full_forces_full_witness :
    (([] : List SRec).all (fun b => !b.full) = true) ∧
      should_force_full_chain ([] : List SRec) = true :=
  ⟨rfl, c3_no_full_forces_full [] rfl⟩

/-- C4: for a chain of incrementals followed by a full record,
`should_force_full` returns true exactly when the cumulative size of
the incrementals before the first full record strictly exceeds half of
that full record's size; exactly 50% does not force a full backup. -/
theorem c4_exclusive_threshold (incs : List SRec) (f : SRec) (rest : List SRec)
    (hincs : incs.all (fun b => !b.full) = true) (hf : f.full = true) :
    (should_force_full_chain (incs ++ f :: rest) = true ↔
      (1 / 2 : ℚ) * (f.size : ℚ) < sumSizesQ incs) := by
  unfold should_force_full_chain
  rw [sffl_append incs f rest 0 hincs hf]
  simp

theorem c4_exclusive_threshold_witness :
    ([plainRec false 50].all (fun b => !b.full) = true) ∧
      (plainRec true 100).full = true ∧
      should_force_full_chain ([plainRec false 50] ++ [plainRec true 100]) = false := by
  refine ⟨by decide, by decide, ?_⟩
  have h := c4_exclusive_threshold [plainRec false 50] (plainRec true 100) []
    (by decide) (by decide)
  have hlt : ¬((1 / 2 : ℚ) * ((plainRec true 100).size : ℚ) <
      sumSizesQ [plainRec false 50]) := by
    simp [plainRec, mkChainRec, sumSizesQ]
    norm_num
  cases hc : should_force_full_chain ([plainRec false 50] ++ [plainRec true 100]) with
  | false => rfl
  | true => exact absurd (h.mp hc) hlt

/-! ### Config store (claim C6) -/

/-- C6: the claim says `get()` fills every missing field with its
built-in default; the code computes the merged dictionary but returns
the raw parsed mapping, so a document missing `min_age_in_days` comes
back without it. -/
theorem c6_defaults_not_merged :
    get_backup_config "/home/user-data" (.mapping [("target", .str "s3://bucket")]) =
      [("target", .str "s3://bucket")] ∧
    alookup "min_age_in_days"
      (get_backup_config "/home/user-data"
        (.mapping [("target", .str "s3://bucket")])) = none ∧
    alookup "min_age_in_days"
      (dictUpdate (default_config "/home/user-data") [("target", .str "s3://bucket")]) =
      some (.int 3) := by
  refine ⟨rfl, by decide, by decide⟩

/-! ### Retention scenario (claim C7) -/

theorem pyRound_half_even (n : ℤ) (q : ℚ) (hq : q = (n : ℚ) + 1 / 2)
    (he : n % 2 = 0) : pyRound q = n := by
  have hf : ⌊q⌋ = n := by
    rw [Int.floor_eq_iff, hq]
    exact ⟨by linarith, by linarith⟩
  simp only [pyRound]
  rw [hf, hq]
  have hr : (n : ℚ) + 1 / 2 - (n : ℚ) = 1 / 2 := by ring
  rw [hr]
  simp [he]

/-- C7: on the scenario chain (full of size 100, then two incrementals
of size 10 each) with a minimum age of 3 days, the policy does not
force a full backup (20 does not exceed 50), the prediction formula
rounds `3 + (50 - 20)/10 + 0.5` to 6 days, and that estimate is
assigned to all three records of the segment. -/
theorem c7_prediction_scenario :
    deletedInEstimate 3 2 20 100 = .approxDays 6 ∧
    should_force_full_chain (sortByDateDesc c7chain) = false ∧
    (computeBackups 3 ⟨2, 1, 4, 0, 0, 0⟩ c7chain).map (fun b => b.deletedIn) =
      [some (.approxDays 6), some (.approxDays 6), some (.approxDays 6)] := by
  have hEst : deletedInEstimate 3 2 20 100 = DeletedIn.approxDays 6 := by
    unfold deletedInEstimate
    have hq : ((3 : ℤ) : ℚ) + (1 / 2 * ((100 : ℕ) : ℚ) - ((20 : ℕ) : ℚ)) /
        (((20 : ℕ) : ℚ) / ((2 : ℕ) : ℚ)) + 1 / 2 = ((6 : ℤ) : ℚ) + 1 / 2 := by
      push_cast
      norm_num
    rw [pyRound_half_even 6 _ hq (by decide)]
  have hsort : sortByDateDesc c7chain =
      [mkChainRec "0002-01-03" ⟨2, 1, 3, 0, 0, 0⟩ false 10,
       mkChainRec "0002-01-02" ⟨2, 1, 2, 0, 0, 0⟩ false 10,
       mkChainRec "0002-01-01" ⟨2, 1, 1, 0, 0, 0⟩ true 100] := by decide
  have hforce : should_force_full_chain (sortByDateDesc c7chain) = false := by
    rw [hsort]
    unfold should_force_full_chain
    rw [sffl_cons_inc _ _ _ rfl, sffl_cons_inc _ _ _ rfl, sffl_cons_full _ _ _ rfl]
    rw [decide_eq_false_iff_not]
    simp only [mkChainRec]
    push_cast
    norm_num
  have hscan : scanSizes (sortByDateDesc c7chain) = (2, 20, some 100) := by decide
  refine ⟨hEst, hforce, ?_⟩
  have hcb : computeBackups 3 ⟨2, 1, 4, 0, 0, 0⟩ c7chain =
      propagate (subDays ⟨2, 1, 4, 0, 0, 0⟩ (Int.toNat 3)) (some (.approxDays 6))
        false (sortByDateDesc c7chain) := by
    simp only [computeBackups]
    rw [hscan]
    simp [hEst]
  rw [hcb]
  decide

/-! ### Credentials and environment (claim C10) -/

theorem alookup_dictInsert_other (k k' : String) (v : ConfVal) (d : ConfDoc)
    (h : k' ≠ k) : alookup k (dictInsert d k' v) = alookup k d := by
  induction d with
  | nil => simp [alookup, dictInsert, h]
  | cons a rest ih =>
    obtain ⟨ka, va⟩ := a
    by_cases hk : ka = k'
    · subst hk
      simp [alookup, dictInsert, h]
    · simp [alookup, dictInsert, hk, ih]

theorem cfgTarget_creds (c : ConfDoc) (u p : ConfVal) :
    cfgTarget (dictInsert (dictInsert c "target_user" u) "target_pass" p) =
      cfgTarget c := by
  unfold cfgTarget
  rw [alookup_dictInsert_other _ _ _ _ (by decide),
    alookup_dictInsert_other _ _ _ _ (by decide)]

theorem cfgMinAge_creds (c : ConfDoc) (u p : ConfVal) :
    cfgMinAge (dictInsert (dictInsert c "target_user" u) "target_pass" p) =
      cfgMinAge c := by
  unfold cfgMinAge
  rw [alookup_dictInsert_other _ _ _ _ (by decide),
    alookup_dictInsert_other _ _ _ _ (by decide)]

/-- C10: for a target whose scheme is neither `file` nor `s3`, the
subprocess environment holds only `PASSPHRASE`; and no command line
handed to the external tool depends on the configured
`target_user`/`target_pass` values (credentials travel via the
environment exclusively, and only for the `s3` scheme). -/
theorem c10_credentials_env_only (storageRoot storageUser : String)
    (config : ConfDoc) (secret : String) (s : String)
    (hs : get_target_type config = .ok s)
    (h43 : ¬ (pyStrip secret).length < 43)
    (_hfile : s ≠ "file") (hs3 : s ≠ "s3") :
    get_env config secret = .ok [("PASSPHRASE", pyStrip secret)]
    ∧ (∀ u p, status_args storageRoot
        (dictInsert (dictInsert config "target_user" u) "target_pass" p) =
        status_args storageRoot config)
    ∧ (∀ u p full, snapshot_args storageRoot
        (dictInsert (dictInsert config "target_user" u) "target_pass" p) full =
        snapshot_args storageRoot config full)
    ∧ (∀ u p, remove_args storageRoot
        (dictInsert (dictInsert config "target_user" u) "target_pass" p) =
        remove_args storageRoot config)
    ∧ (∀ u p, cleanup_args storageRoot
        (dictInsert (dictInsert config "target_user" u) "target_pass" p) =
        cleanup_args storageRoot config)
    ∧ (∀ u p, post_args storageRoot storageUser
        (dictInsert (dictInsert config "target_user" u) "target_pass" p) =
        post_args storageRoot storageUser config) := by
  refine ⟨?_, ?_, ?_, ?_, ?_, ?_⟩
  · simp only [get_env, get_passphrase, h43, if_false, ite_false, hs]
    simp only [Bind.bind, Except.bind, hs3, if_false, ite_false]
    rfl
  · intro u p
    simp only [status_args, cfgTarget_creds]
  · intro u p full
    simp only [snapshot_args, cfgTarget_creds]
  · intro u p
    simp only [remove_args, cfgTarget_creds, cfgMinAge_creds]
  · intro u p
    simp only [cleanup_args, cfgTarget_creds]
  · intro u p
    simp only [post_args, cfgTarget_creds]

theorem c10_credentials_env_only_witness :
    get_target_type
        [("target", ConfVal.str "rsync://u@host//backups"),
         ("target_user", ConfVal.str "alice"),
         ("target_pass", ConfVal.str "hunter2"),
         ("min_age_in_days", ConfVal.int 3)] = .ok "rsync"
    ∧ ¬ (pyStrip goodSecret).length < 43
    ∧ get_env
        [("target", ConfVal.str "rsync://u@host//backups"),
         ("target_user", ConfVal.str "alice"),
         ("target_pass", ConfVal.str "hunter2"),
         ("min_age_in_days", ConfVal.int 3)] goodSecret =
        .ok [("PASSPHRASE", pyStrip goodSecret)] :=
  ⟨rfl, by decide,
    (c10_credentials_env_only "/home/user-data" "user-data"
      [("target", ConfVal.str "rsync://u@host//backups"),
       ("target_user", ConfVal.str "alice"),
       ("target_pass", ConfVal.str "hunter2"),
       ("min_age_in_days", ConfVal.int 3)] goodSecret "rsync"
      rfl (by decide) (by decide) (by decide)).1⟩

/-! ### Status-collector failure behaviour (claim C5) -/

theorem collectLoop_skips (now : DateTime) (lines : List String) :
    ∀ acc, (∀ l ∈ lines, (pyStartsWith l " full" || pyStartsWith l " inc") = false) →
      collectLoop now acc lines = .ok acc := by
  induction lines with
  | nil => intro acc _; rfl
  | cons line rest ih =>
    intro acc h
    have h1 := h line (by simp)
    simp only [collectLoop, h1, Bool.false_eq_true, if_false, ite_false]
    exact ih acc (fun l hl => h l (by simp [hl]))

theorem computeBackups_nil (minAge : ℤ) (now : DateTime) :
    computeBackups minAge now [] = [] := rfl

/-- C5 (amended): when the external tool exits non-zero the status
query propagates an error (the modelled `shell` raises), but output
with no parseable records does NOT raise — `backup_status` returns a
normal result whose chain is empty. -/
theorem c5_empty_chain_not_error (storageRoot : String) (w : World)
    (htarget : ∃ t, cfgTarget (get_backup_config storageRoot w.customYaml) = .ok t)
    (henv : ∃ e, get_env (get_backup_config storageRoot w.customYaml)
      w.secretFirstLine = .ok e)
    (hmin : ∃ n, cfgMinAge (get_backup_config storageRoot w.customYaml) = .ok n) :
    (w.statusOut = .error () → backup_status storageRoot w = .error .statusUnavailable)
    ∧ (∀ lines, w.statusOut = .ok lines →
        (∀ l ∈ lines, (pyStartsWith l " full" || pyStartsWith l " inc") = false) →
        backup_status storageRoot w = .ok
          { directory := backupRootOf storageRoot ++ "/encrypted"
            encpwfile := backupRootOf storageRoot ++ "/secret_key.txt"
            tz := w.tz
            backups := [] }) := by
  obtain ⟨t, ht⟩ := htarget
  obtain ⟨e, he⟩ := henv
  obtain ⟨n, hn⟩ := hmin
  constructor
  · intro hout
    simp [backup_status, status_args, ht, he, hout, shellCheckOutput,
      Bind.bind, Except.bind, Pure.pure, Except.pure]
  · intro lines hout hl
    simp only [backup_status, status_args, ht, he, hout, shellCheckOutput,
      Bind.bind, Except.bind, Pure.pure, Except.pure, collectRecords,
      collectLoop_skips w.now lines [] hl, hn, computeBackups_nil]

/-- C5 counterexample: status output with no parseable record lines
yields a successful empty chain, not a `StatusUnavailable` error. -/
theorem c5_empty_chain_not_error_cx :
    backup_status "/home/user-data"
      { wGood with
        statusOut := .ok ["Chain start time: Thu Jan  1 00:00:00 1970",
          "No orphaned or incomplete backup sets found."] } =
      .ok { directory := "/home/user-data/backup/encrypted"
            encpwfile := "/home/user-data/backup/secret_key.txt"
            tz := "UTC"
            backups := [] } := rfl

theorem c5_empty_chain_not_error_witness :
    backup_status "/home/user-data" { wGood with statusOut := .error () } =
      .error .statusUnavailable :=
  (c5_empty_chain_not_error "/home/user-data"
    { wGood with statusOut := .error () }
    ⟨_, rfl⟩ ⟨_, rfl⟩ ⟨_, rfl⟩).1 rfl

/-! ### Passphrase validation timing (claim C2) -/

/-- C2 (amended): without the full flag the passphrase is read while
evaluating `should_force_full`, so a first line shorter than 43
characters aborts with the passphrase error before either service is
stopped.  (With the full flag the check is short-circuited away; see
the counterexample.) -/
theorem c2_short_passphrase_aborts_early (storageRoot : String) (w : World)
    (hflag : w.fullFlag = false)
    (hshort : (pyStrip w.secretFirstLine).length < 43)
    (htarget : ∃ t, cfgTarget (get_backup_config storageRoot w.customYaml) = .ok t) :
    (perform_backup storageRoot w).2 = some .passphraseTooShort
    ∧ Ev.stopDovecot ∉ (perform_backup storageRoot w).1
    ∧ Ev.stopPostfix ∉ (perform_backup storageRoot w).1 := by
  obtain ⟨t, ht⟩ := htarget
  have hpass : get_passphrase w.secretFirstLine = .error .passphraseTooShort := by
    simp [get_passphrase, hshort]
  have henv : get_env (get_backup_config storageRoot w.customYaml)
      w.secretFirstLine = .error .passphraseTooShort := by
    simp [get_env, hpass, Bind.bind, Except.bind]
  have hbs : backup_status storageRoot w = .error .passphraseTooShort := by
    simp [backup_status, status_args, ht, henv, Bind.bind, Except.bind,
      Pure.pure, Except.pure]
  have hmode : modeSelect storageRoot w = .error .passphraseTooShort := by
    simp [modeSelect, hflag, should_force_full, hbs, Bind.bind, Except.bind]
  have htr : perform_backup storageRoot w =
      ((if w.oldDirExists then [Ev.moveOldDir, Ev.rmtreeBackupDir] else []),
        some .passphraseTooShort) := by
    simp [perform_backup, hmode]
  rw [htr]
  refine ⟨rfl, ?_, ?_⟩ <;> cases w.oldDirExists <;> simp

theorem c2_short_passphrase_aborts_early_witness :
    (pyStrip shortSecret).length < 43
    ∧ (perform_backup "/home/user-data"
        { wGood with fullFlag := false, secretFirstLine := shortSecret }).2 =
        some .passphraseTooShort :=
  ⟨by decide,
    (c2_short_passphrase_aborts_early "/home/user-data"
      { wGood with fullFlag := false, secretFirstLine := shortSecret }
      rfl (by decide) ⟨_, rfl⟩).1⟩

/-- C2 counterexample: with the full flag, the same too-short
passphrase does NOT abort before the services are stopped — both stop
events occur, the snapshot step swallows the error, and the run even
returns normally. -/
theorem c2_short_passphrase_aborts_early_cx :
    Ev.stopDovecot ∈
      (perform_backup "/home/user-data"
        { wGood with secretFirstLine := shortSecret }).1
    ∧ Ev.stopPostfix ∈
      (perform_backup "/home/user-data"
        { wGood with secretFirstLine := shortSecret }).1
    ∧ ({ wGood with secretFirstLine := shortSecret } : World).fullFlag = true
    ∧ (pyStrip shortSecret).length < 43
    ∧ (perform_backup "/home/user-data"
        { wGood with secretFirstLine := shortSecret }).2 = none := by
  refine ⟨by decide, by decide, rfl, by decide, by decide⟩

/-! ### Guaranteed service restart (claim C1) -/

/-- C1: whenever a run reaches the service-stop step, its trace splits
as migration events, the two stops, the snapshot phase (attempt and
log line only — on success, on subprocess failure, and on `get_env`
raising inside the `try`), the two restarts, and only then everything
that follows (legacy cleanup, pruning, cleanup, ownership change,
post-hook, verification polls). -/
theorem c1_restart_guaranteed (storageRoot : String) (w : World)
    (h : Ev.stopDovecot ∈ (perform_backup storageRoot w).1) :
    ∃ pre mid post,
      (perform_backup storageRoot w).1 =
        pre ++ [Ev.stopDovecot, Ev.stopPostfix] ++ mid ++
          [Ev.startDovecot, Ev.startPostfix] ++ post
      ∧ pre.all isMigrationEv = true ∧ mid.all isSnapshotPhaseEv = true := by
  rcases hm : modeSelect storageRoot w with e | full
  · exfalso
    have htr : (perform_backup storageRoot w).1 =
        (if w.oldDirExists then [Ev.moveOldDir, Ev.rmtreeBackupDir] else []) := by
      simp [perform_backup, hm]
    rw [htr] at h
    cases w.oldDirExists <;> simp_all
  · rcases hA : afterRestartSteps storageRoot
        (get_backup_config storageRoot w.customYaml) w
        (w.oldDirExists || w.migratedDirPreexists) with ⟨tailEvs, outcome⟩
    refine ⟨(if w.oldDirExists then [Ev.moveOldDir, Ev.rmtreeBackupDir] else []),
      snapshotEvents storageRoot (get_backup_config storageRoot w.customYaml) w full,
      tailEvs, ?_, ?_, ?_⟩
    · simp [perform_backup, hm, hA]
    · cases w.oldDirExists <;> simp [isMigrationEv]
    · cases hsn : w.snapshotOk <;> unfold snapshotEvents <;> split <;>
        simp [isSnapshotPhaseEv, hsn]

theorem c1_restart_guaranteed_witness :
    Ev.stopDovecot ∈ (perform_backup "/home/user-data" wGood).1
    ∧ ∃ pre mid post,
        (perform_backup "/home/user-data" wGood).1 =
          pre ++ [Ev.stopDovecot, Ev.stopPostfix] ++ mid ++
            [Ev.startDovecot, Ev.startPostfix] ++ post
        ∧ pre.all isMigrationEv = true ∧ mid.all isSnapshotPhaseEv = true :=
  ⟨by decide, c1_restart_guaranteed "/home/user-data" wGood (by decide)⟩

/-! ### Migrated-directory cleanup on snapshot failure (claim C9) -/

/-- C9: the claim (and the comment above `backup.py` line 253) says the
relocated legacy directory is deleted only once a new snapshot exists;
but in a run where migration happened and the snapshot subprocess
failed (warning logged), the directory is deleted anyway. -/
theorem c9_migrated_dir_deleted_on_failure :
    Ev.moveOldDir ∈
      (perform_backup "/home/user-data" { wGood with oldDirExists := true }).1
    ∧ Ev.logBackupFailed ∈
      (perform_backup "/home/user-data" { wGood with oldDirExists := true }).1
    ∧ Ev.rmtreeMigrated ∈
      (perform_backup "/home/user-data" { wGood with oldDirExists := true }).1
    ∧ ({ wGood with oldDirExists := true } : World).snapshotOk = false := by
  refine ⟨by decide, by decide, by decide, rfl⟩

/-! ### Relative-age tiers (claim C8)

The lemmas below characterise `relativedelta`: the month search lands
on the largest month shift not passing the reference, and the display
tier of `reldate` follows the months-of-year and day components.  The
key calendar fact is that the start-of-month day number is strictly
monotone along the month line. -/

theorem one_le_daysInMonth (y m : Nat) : 1 ≤ daysInMonth y m := by
  unfold daysInMonth
  split <;> first | omega | (split <;> omega)

theorem monthsTotal_succ (y m : Nat) :
    monthsTotal y (m + 1) = monthsTotal y m + daysInMonth y (m + 1) := rfl

theorem monthsTotal_twelve (y : Nat) : monthsTotal y 12 = yearLength y := by
  have h2 : daysInMonth y 2 = if isLeap y then 29 else 28 := rfl
  show 0 + 31 + daysInMonth y 2 + 31 + 30 + 31 + 30 + 31 + 31 + 30 + 31 + 30 + 31 =
    yearLength y
  rw [h2]
  unfold yearLength
  cases isLeap y <;> simp

theorem daysBeforeYear_succ (y : Nat) (hy : 1 ≤ y) :
    daysBeforeYear (y + 1) = daysBeforeYear y + yearLength y := by
  rcases y with _ | z
  · omega
  · simp [daysBeforeYear]

theorem monthStart_succ (i : Nat) (hi : 12 ≤ i) :
    monthStart (i + 1) = monthStart i + daysInMonth (i / 12) (i % 12 + 1) := by
  unfold monthStart
  by_cases hr : i % 12 = 11
  · have h1 : (i + 1) / 12 = i / 12 + 1 := by omega
    have h2 : (i + 1) % 12 = 0 := by omega
    have hy : 1 ≤ i / 12 := by omega
    rw [h1, h2, hr]
    have e7 : (11 : Nat) + 1 = 12 := by norm_num
    rw [e7]
    have h3 : monthsTotal (i / 12 + 1) 0 = 0 := rfl
    have h4 : daysBeforeYear (i / 12 + 1) =
        daysBeforeYear (i / 12) + yearLength (i / 12) := daysBeforeYear_succ _ hy
    have h5 : monthsTotal (i / 12) 12 =
        monthsTotal (i / 12) 11 + daysInMonth (i / 12) 12 := rfl
    have h6 : monthsTotal (i / 12) 12 = yearLength (i / 12) := monthsTotal_twelve _
    omega
  · have h1 : (i + 1) / 12 = i / 12 := by omega
    have h2 : (i + 1) % 12 = i % 12 + 1 := by omega
    rw [h1, h2]
    have h3 : monthsTotal (i / 12) (i % 12 + 1) =
        monthsTotal (i / 12) (i % 12) + daysInMonth (i / 12) (i % 12 + 1) := rfl
    omega

theorem monthStart_mono (i : Nat) (hi : 12 ≤ i) :
    ∀ j, i ≤ j → monthStart i ≤ monthStart j := by
  intro j
  induction j with
  | zero => intro h; omega
  | succ k ih =>
    intro h
    rcases Nat.lt_or_ge k i with hk | hk
    · have h' : i = k + 1 := by omega
      rw [h']
    · have hstep := monthStart_succ k (by omega)
      have := ih hk
      have := one_le_daysInMonth (k / 12) (k % 12 + 1)
      omega

theorem toDayNumber_eq_monthStart (dt : DateTime) (h1 : 1 ≤ dt.month)
    (h12 : dt.month ≤ 12) :
    toDayNumber dt = monthStart (monthIdx dt) + (dt.day - 1) := by
  unfold toDayNumber monthStart monthIdx
  have e1 : (dt.year * 12 + (dt.month - 1)) / 12 = dt.year := by omega
  have e2 : (dt.year * 12 + (dt.month - 1)) % 12 = dt.month - 1 := by omega
  rw [e1, e2]

theorem toSecs_lt_of_monthIdx_lt (a b : DateTime) (ha : ValidDT a)
    (hb : ValidDT b) (hlt : monthIdx a < monthIdx b) : toSecs a < toSecs b := by
  obtain ⟨hay, ham1, ham12, had1, hadm, hah, hami, has⟩ := ha
  obtain ⟨hby, hbm1, hbm12, hbd1, hbdm, hbh, hbmi, hbs⟩ := hb
  have hia : 12 ≤ monthIdx a := by unfold monthIdx; omega
  have e1 : monthIdx a / 12 = a.year := by unfold monthIdx; omega
  have e2 : monthIdx a % 12 = a.month - 1 := by unfold monthIdx; omega
  have hstep := monthStart_succ (monthIdx a) hia
  rw [e1, e2] at hstep
  have e3 : a.month - 1 + 1 = a.month := by omega
  rw [e3] at hstep
  have hda := toDayNumber_eq_monthStart a ham1 ham12
  have hdb := toDayNumber_eq_monthStart b hbm1 hbm12
  have hmono := monthStart_mono (monthIdx a + 1) (by omega) (monthIdx b) (by omega)
  have hdn : toDayNumber a < toDayNumber b := by omega
  unfold toSecs
  omega

theorem monthIdx_addMonths (dt : DateTime) (k : Nat) :
    monthIdx (addMonths dt k) = monthIdx dt + k := by
  simp only [addMonths, monthIdx]
  omega

theorem validDT_addMonths (dt : DateTime) (k : Nat) (h : ValidDT dt) :
    ValidDT (addMonths dt k) := by
  obtain ⟨hy, hm1, hm12, hd1, hdm, hh, hmi, hs⟩ := h
  have hdim := one_le_daysInMonth ((monthIdx dt + k) / 12) ((monthIdx dt + k) % 12 + 1)
  have hidx : 12 ≤ monthIdx dt + k := by unfold monthIdx; omega
  refine ⟨?_, ?_, ?_, ?_, ?_, hh, hmi, hs⟩
  · show 1 ≤ (monthIdx dt + k) / 12
    omega
  · show 1 ≤ (monthIdx dt + k) % 12 + 1
    omega
  · show (monthIdx dt + k) % 12 + 1 ≤ 12
    omega
  · show 1 ≤ min dt.day (daysInMonth _ _)
    omega
  · show min dt.day (daysInMonth _ _) ≤ daysInMonth _ _
    exact Nat.min_le_right _ _

theorem addMonths_zero (dt : DateTime) (h : ValidDT dt) : addMonths dt 0 = dt := by
  obtain ⟨hy, hm1, hm12, hd1, hdm, _, _, _⟩ := h
  have e1 : (monthIdx dt + 0) / 12 = dt.year := by unfold monthIdx; omega
  have e2 : (monthIdx dt + 0) % 12 + 1 = dt.month := by unfold monthIdx; omega
  simp only [addMonths]
  rw [e1, e2, Nat.min_eq_left hdm]

theorem addMonths_secs_mono (dt : DateTime) (h : ValidDT dt) (a b : Nat)
    (hab : a ≤ b) : toSecs (addMonths dt a) ≤ toSecs (addMonths dt b) := by
  rcases Nat.eq_or_lt_of_le hab with he | hlt
  · rw [he]
  · exact Nat.le_of_lt (toSecs_lt_of_monthIdx_lt _ _ (validDT_addMonths dt a h)
      (validDT_addMonths dt b h)
      (by rw [monthIdx_addMonths, monthIdx_addMonths]; omega))

theorem findMonths_le_target (dt1 dt2 : DateTime)
    (h0 : toSecs (addMonths dt2 0) ≤ toSecs dt1) :
    ∀ fuel, toSecs (addMonths dt2 (findMonths dt1 dt2 fuel)) ≤ toSecs dt1 := by
  intro fuel
  induction fuel with
  | zero => exact h0
  | succ k ih =>
    unfold findMonths
    split
    · exact ih
    · omega

theorem findMonths_pos (dt1 dt2 : DateTime)
    (h1 : toSecs (addMonths dt2 1) ≤ toSecs dt1) :
    ∀ fuel, 1 ≤ fuel → 1 ≤ findMonths dt1 dt2 fuel := by
  intro fuel
  induction fuel with
  | zero => omega
  | succ k ih =>
    intro _
    unfold findMonths
    split
    · rcases Nat.eq_zero_or_pos k with hk | hk
      · subst hk
        simp only [Nat.zero_add] at *
        omega
      · exact ih hk
    · omega

theorem rd_months_eq (dt1 dt2 : DateTime) :
    (relativedeltaOf dt1 dt2).months =
      (findMonths dt1 dt2
        ((dt1.year * 12 + dt1.month) - (dt2.year * 12 + dt2.month))) % 12 := rfl

theorem rd_days_eq (dt1 dt2 : DateTime) :
    (relativedeltaOf dt1 dt2).days =
      (toSecs dt1 - toSecs (addMonths dt2 (findMonths dt1 dt2
        ((dt1.year * 12 + dt1.month) - (dt2.year * 12 + dt2.month))))) / 86400 := rfl

theorem rd_hours_eq (dt1 dt2 : DateTime) :
    (relativedeltaOf dt1 dt2).hours =
      (toSecs dt1 - toSecs (addMonths dt2 (findMonths dt1 dt2
        ((dt1.year * 12 + dt1.month) - (dt2.year * 12 + dt2.month))))) % 86400 / 3600 := rfl

theorem rd_minutes_eq (dt1 dt2 : DateTime) :
    (relativedeltaOf dt1 dt2).minutes =
      (toSecs dt1 - toSecs (addMonths dt2 (findMonths dt1 dt2
        ((dt1.year * 12 + dt1.month) - (dt2.year * 12 + dt2.month))))) % 3600 / 60 := rfl

theorem reldate_not_clipped (date ref : DateTime) (clip : String)
    (h : ¬ toSecs ref < toSecs date) :
    reldate date ref clip =
      (if 1 < (relativedeltaOf ref date).months then
        .monthsDays (relativedeltaOf ref date).months (relativedeltaOf ref date).days
      else if (relativedeltaOf ref date).months = 1 then
        .monthDays (relativedeltaOf ref date).months (relativedeltaOf ref date).days
      else if 7 ≤ (relativedeltaOf ref date).days then
        .daysOnly (relativedeltaOf ref date).days
      else if 1 < (relativedeltaOf ref date).days then
        .daysHours (relativedeltaOf ref date).days (relativedeltaOf ref date).hours
      else if (relativedeltaOf ref date).days = 1 then
        .dayHours (relativedeltaOf ref date).days (relativedeltaOf ref date).hours
      else .hoursMinutes (relativedeltaOf ref date).hours
        (relativedeltaOf ref date).minutes) := by
  unfold reldate
  rw [if_neg h]

theorem guess_pos (date ref : DateTime) (hd : ValidDT date) (hr : ValidDT ref)
    (h1 : toSecs (addMonths date 1) ≤ toSecs ref) :
    1 ≤ (ref.year * 12 + ref.month) - (date.year * 12 + date.month) := by
  by_contra h'
  have hidx : monthIdx ref < monthIdx (addMonths date 1) := by
    rw [monthIdx_addMonths]
    unfold monthIdx
    obtain ⟨_, hm1, _, _⟩ := hd
    obtain ⟨_, hm1r, _, _⟩ := hr
    omega
  exact absurd h1 (Nat.not_le.mpr
    (toSecs_lt_of_monthIdx_lt ref (addMonths date 1) hr
      (validDT_addMonths date 1 hd) hidx))

/-- C8 (amended): `reldate` emits the clip sentinel when the reference
precedes the date; otherwise the tier follows the calendar difference
with whole years EXCLUDED from the month component: months+days
whenever the gap is at least one month (and under a year), and for
sub-month gaps exactly the code's day/hour/minute tiers as a function
of the second gap.  For gaps of a year or more the months component
wraps (see the counterexample). -/
theorem c8_reldate_unit_tiers (date ref : DateTime) (clip : String)
    (hd : ValidDT date) (hr : ValidDT ref)
    (hyear : toSecs ref < toSecs (addMonths date 12)) :
    (toSecs ref < toSecs date → reldate date ref clip = .clipped clip)
    ∧ (toSecs date ≤ toSecs ref →
        (toSecs (addMonths date 1) ≤ toSecs ref →
          isMonthsTier (reldate date ref clip) = true)
        ∧ (toSecs ref < toSecs (addMonths date 1) →
            reldate date ref clip =
              (if 7 * 86400 ≤ toSecs ref - toSecs date then
                RelDate.daysOnly ((toSecs ref - toSecs date) / 86400)
              else if 2 * 86400 ≤ toSecs ref - toSecs date then
                RelDate.daysHours ((toSecs ref - toSecs date) / 86400)
                  ((toSecs ref - toSecs date) % 86400 / 3600)
              else if 86400 ≤ toSecs ref - toSecs date then
                RelDate.dayHours ((toSecs ref - toSecs date) / 86400)
                  ((toSecs ref - toSecs date) % 86400 / 3600)
              else
                RelDate.hoursMinutes ((toSecs ref - toSecs date) % 86400 / 3600)
                  ((toSecs ref - toSecs date) % 3600 / 60)))) := by
  constructor
  · intro hlt
    unfold reldate
    rw [if_pos hlt]
  · intro hge
    have h0 : toSecs (addMonths date 0) ≤ toSecs ref := by
      rw [addMonths_zero date hd]
      exact hge
    have hreach := findMonths_le_target ref date h0
      ((ref.year * 12 + ref.month) - (date.year * 12 + date.month))
    set m := findMonths ref date
      ((ref.year * 12 + ref.month) - (date.year * 12 + date.month)) with hm
    constructor
    · intro h1
      have hpos : 1 ≤ m := by
        rw [hm]
        exact findMonths_pos ref date h1 _ (guess_pos date ref hd hr h1)
      have h11 : m ≤ 11 := by
        by_contra h'
        have h12 : toSecs (addMonths date 12) ≤ toSecs (addMonths date m) :=
          addMonths_secs_mono date hd 12 m (by omega)
        omega
      have hmm : (relativedeltaOf ref date).months = m := by
        rw [rd_months_eq, ← hm]
        omega
      rw [reldate_not_clipped date ref clip (by omega)]
      by_cases h2 : 1 < (relativedeltaOf ref date).months
      · rw [if_pos h2]
        rfl
      · rw [if_neg h2, if_pos (by omega : (relativedeltaOf ref date).months = 1)]
        rfl
    · intro hlt1
      have hm0 : m = 0 := by
        by_contra h'
        have h1le : toSecs (addMonths date 1) ≤ toSecs (addMonths date m) :=
          addMonths_secs_mono date hd 1 m (by omega)
        omega
      have hg : toSecs (addMonths date m) = toSecs date := by
        rw [hm0, addMonths_zero date hd]
      have hmm : (relativedeltaOf ref date).months = 0 := by
        rw [rd_months_eq, ← hm, hm0]
      have hdd : (relativedeltaOf ref date).days =
          (toSecs ref - toSecs date) / 86400 := by
        rw [rd_days_eq, ← hm, hg]
      have hhh : (relativedeltaOf ref date).hours =
          (toSecs ref - toSecs date) % 86400 / 3600 := by
        rw [rd_hours_eq, ← hm, hg]
      have hmi : (relativedeltaOf ref date).minutes =
          (toSecs ref - toSecs date) % 3600 / 60 := by
        rw [rd_minutes_eq, ← hm, hg]
      rw [reldate_not_clipped date ref clip (by omega)]
      rw [if_neg (by omega), if_neg (by omega), hdd, hhh, hmi]
      by_cases hc1 : 7 * 86400 ≤ toSecs ref - toSecs date
      · rw [if_pos (by omega), if_pos hc1]
      · rw [if_neg (by omega), if_neg hc1]
        by_cases hc2 : 2 * 86400 ≤ toSecs ref - toSecs date
        · rw [if_pos (by omega), if_pos hc2]
        · rw [if_neg (by omega), if_neg hc2]
          by_cases hc3 : 86400 ≤ toSecs ref - toSecs date
          · rw [if_pos (by omega), if_pos hc3]
          · rw [if_neg (by omega), if_neg hc3]

/-- C8 counterexample: a gap of one year and three days is "at least
one month", yet `reldate` reports the days tier ("3 days, 0 hours"),
because `relativedelta` normalises twelve months into a year and the
code never looks at the years component. -/
theorem c8_reldate_unit_tiers_cx :
    toSecs (addMonths ⟨2, 1, 1, 0, 0, 0⟩ 1) ≤ toSecs ⟨3, 1, 4, 0, 0, 0⟩
    ∧ isMonthsTier (reldate ⟨2, 1, 1, 0, 0, 0⟩ ⟨3, 1, 4, 0, 0, 0⟩ "the future?") =
        false
    ∧ reldate ⟨2, 1, 1, 0, 0, 0⟩ ⟨3, 1, 4, 0, 0, 0⟩ "the future?" =
        .daysHours 3 0 := by
  refine ⟨by decide, by decide, by decide⟩

theorem c8_reldate_unit_tiers_witness :
    ValidDT ⟨2, 1, 1, 0, 0, 0⟩ ∧ ValidDT ⟨2, 2, 10, 0, 0, 0⟩
    ∧ toSecs (⟨2, 2, 10, 0, 0, 0⟩ : DateTime) <
        toSecs (addMonths ⟨2, 1, 1, 0, 0, 0⟩ 12)
    ∧ toSecs (⟨2, 1, 1, 0, 0, 0⟩ : DateTime) ≤ toSecs ⟨2, 2, 10, 0, 0, 0⟩
    ∧ toSecs (addMonths ⟨2, 1, 1, 0, 0, 0⟩ 1) ≤ toSecs ⟨2, 2, 10, 0, 0, 0⟩
    ∧ isMonthsTier (reldate ⟨2, 1, 1, 0, 0, 0⟩ ⟨2, 2, 10, 0, 0, 0⟩ "x") = true :=
  ⟨by decide, by decide, by decide, by decide, by decide,
    ((c8_reldate_unit_tiers ⟨2, 1, 1, 0, 0, 0⟩ ⟨2, 2, 10, 0, 0, 0⟩ "x"
        (by decide) (by decide) (by decide)).2 (by decide)).1 (by decide)⟩
